import Mathlib

/-!
Verification of the particle-simulation core of `src/Simulation.tsx`.

The definitions below are a shallow embedding of the TypeScript/GLSL source:

* `DoubleBuffer` and its operations model `createDoubleBufferTexture`
  (two distinct backing textures plus a read/write designation that `swap`
  exchanges) and the publish-then-swap protocol of `update`.
* `growSizeAux` / `textureSizeOf` model the `textureSize` doubling loop in
  `createParticles` (start at 2, double while `S*S < particleCount`).
* `particleDistance`, `colorDistance`, `pairContribution`,
  `pointerDirection`, `applyBoundary`, `updateTransform` and `mainKernel`
  model the GLSL force kernel, with GPU floats modelled as real numbers.
* `initTransform` models the transform-texture seeding callback.
-/

/-- The `PARTICLE_COUNT` constant of the source. -/
def PARTICLE_COUNT : ℕ := 20000

/-- Model of a double-buffered texture: two backing stores (the two
`createDataTexture` results) plus a flag recording which one the mutable
`read` binding currently designates (`false` right after creation). -/
structure DoubleBuffer (α : Type) where
  store0 : α
  store1 : α
  readIsOne : Bool

/-- Model of `createDoubleBufferTexture`: both backing stores are filled
from the same initial data, and `read` designates the first store. -/
def DoubleBuffer.create {α : Type} (data : α) : DoubleBuffer α :=
  ⟨data, data, false⟩

/-- Model of `getRead()`: the store currently designated `read`. -/
def DoubleBuffer.getRead {α : Type} (db : DoubleBuffer α) : α :=
  if db.readIsOne then db.store1 else db.store0

/-- Model of `getWrite()`: the store currently designated `write`. -/
def DoubleBuffer.getWrite {α : Type} (db : DoubleBuffer α) : α :=
  if db.readIsOne then db.store0 else db.store1

/-- Which backing store (`false` = first, `true` = second) `getRead`
returns. -/
def DoubleBuffer.readSlot {α : Type} (db : DoubleBuffer α) : Bool :=
  db.readIsOne

/-- Which backing store `getWrite` returns. -/
def DoubleBuffer.writeSlot {α : Type} (db : DoubleBuffer α) : Bool :=
  !db.readIsOne

/-- Model of `swap()`: it runs `[read, write] = [write, read]`. -/
def DoubleBuffer.swap {α : Type} (db : DoubleBuffer α) : DoubleBuffer α :=
  { db with readIsOne := !db.readIsOne }

/-- A mutation of the write-side store (the framebuffer draw of `update`
targets `getWrite()`). -/
def DoubleBuffer.writeToWrite {α : Type} (db : DoubleBuffer α) (a : α) :
    DoubleBuffer α :=
  if db.readIsOne then { db with store0 := a } else { db with store1 := a }

/-- Model of one `update()` step for a single double buffer: the draw
writes `a` into the write-side store, the result is published
(`this.textureTransform = transformTexture.getWrite()`), and then `swap()`
runs.  Returns the published value and the post-swap buffer. -/
def DoubleBuffer.updateStep {α : Type} (db : DoubleBuffer α) (a : α) :
    α × DoubleBuffer α :=
  let db1 := db.writeToWrite a
  (db1.getWrite, db1.swap)

/-- Claim C3: for the double buffer created by `createDoubleBufferTexture`,
`getRead` and `getWrite` always return distinct backing stores; writes to
the write side leave the value observed via `getRead` unchanged until
`swap` is called; `swap` exchanges the read/write designation; and after a
completed `update()` step the published state is exactly the buffer that
was the write target immediately before the swap, which is also the buffer
`getRead` returns afterwards. -/
theorem double_buffer_contract (α : Type) (db : DoubleBuffer α) (a : α) :
    db.readSlot = !db.writeSlot ∧
    (db.writeToWrite a).getRead = db.getRead ∧
    db.swap.getRead = db.getWrite ∧
    db.swap.getWrite = db.getRead ∧
    (db.updateStep a).1 = (db.writeToWrite a).getWrite ∧
    ((db.updateStep a).2).getRead = (db.updateStep a).1 := by
  cases db with
  | mk s0 s1 flag =>
    cases flag <;>
      simp [DoubleBuffer.readSlot, DoubleBuffer.writeSlot,
        DoubleBuffer.getRead, DoubleBuffer.getWrite, DoubleBuffer.swap,
        DoubleBuffer.writeToWrite, DoubleBuffer.updateStep]

/-- Fuel-based model of the `textureSize` doubling loop of
`createParticles`:

    let textureSize = 2;
    while (textureSize * textureSize < particleCount) textureSize *= 2;

The fuel argument only bounds the number of iterations; `textureSizeOf`
supplies enough fuel for the loop to reach its exit condition. -/
def growSizeAux : ℕ → ℕ → ℕ → ℕ
  | 0, _, s => s
  | fuel + 1, n, s => if s * s < n then growSizeAux fuel n (s * 2) else s

/-- The texture side length chosen by `createParticles` for `n` particles. -/
def textureSizeOf (n : ℕ) : ℕ := growSizeAux n n 2

lemma growSizeAux_correct (fuel : ℕ) : ∀ n s : ℕ,
    (∃ k, s = 2 ^ k) → 2 ≤ s →
    (∀ t, (∃ k, t = 2 ^ k) → 2 ≤ t → t < s → t * t < n) →
    n ≤ s * s * 2 ^ fuel →
    (∃ k, growSizeAux fuel n s = 2 ^ k) ∧ 2 ≤ growSizeAux fuel n s ∧
    n ≤ growSizeAux fuel n s * growSizeAux fuel n s ∧
    (∀ t, (∃ k, t = 2 ^ k) → 2 ≤ t → t < growSizeAux fuel n s →
      t * t < n) := by
  induction fuel with
  | zero =>
    intro n s hs h2 hmin hfuel
    simp only [growSizeAux]
    refine ⟨hs, h2, ?_, hmin⟩
    simpa using hfuel
  | succ f ih =>
    intro n s hs h2 hmin hfuel
    by_cases h : s * s < n
    · have hrw : growSizeAux (f + 1) n s = growSizeAux f n (s * 2) := by
        simp [growSizeAux, h]
      rw [hrw]
      obtain ⟨k, hk⟩ := hs
      refine ih n (s * 2) ⟨k + 1, by rw [hk]; ring⟩ (by omega) ?_ ?_
      · intro t ht ht2 htlt
        obtain ⟨j, hj⟩ := ht
        have hts : t ≤ s := by
          subst hj hk
          have : j < k + 1 := by
            have := (Nat.pow_lt_pow_iff_right (by norm_num : 1 < 2)).mp
              (by calc 2 ^ j < 2 ^ k * 2 := htlt
                    _ = 2 ^ (k + 1) := by ring)
            exact this
          exact Nat.pow_le_pow_right (by norm_num) (by omega)
        rcases Nat.lt_or_ge t s with hlt | hge
        · exact hmin t ⟨j, hj⟩ ht2 hlt
        · have : t = s := le_antisymm hts hge
          rw [this]; exact h
      · calc n ≤ s * s * 2 ^ (f + 1) := hfuel
          _ = s * s * 2 * 2 ^ f := by ring
          _ ≤ s * 2 * (s * 2) * 2 ^ f := by
              have : s * s * 2 ≤ s * 2 * (s * 2) := by nlinarith
              exact Nat.mul_le_mul_right _ this
    · have hrw : growSizeAux (f + 1) n s = s := by
        simp [growSizeAux, h]
      rw [hrw]
      exact ⟨hs, h2, by omega, hmin⟩

lemma textureSizeOf_spec (n : ℕ) :
    (∃ k, textureSizeOf n = 2 ^ k) ∧ 2 ≤ textureSizeOf n ∧
    n ≤ textureSizeOf n * textureSizeOf n ∧
    (∀ t, (∃ k, t = 2 ^ k) → 2 ≤ t → t < textureSizeOf n → t * t < n) := by
  have hfuel : n ≤ 2 * 2 * 2 ^ n := by
    have h1 : n < 2 ^ n := Nat.lt_two_pow n
    have h2 : 2 ^ n ≤ 2 * 2 * 2 ^ n := by nlinarith [Nat.pos_pow_of_pos n (by norm_num : 0 < 2)]
    omega
  exact growSizeAux_correct n n 2 ⟨1, rfl⟩ (le_refl 2)
    (fun t _ ht2 htlt => absurd (lt_of_le_of_lt ht2 htlt) (lt_irrefl 2)) hfuel

/-- Counterexample to claim C4 as stated: for N = 1 the doubling loop
returns S = 2, yet 1 is a strictly smaller power of two whose square is
at least N, so 2 is not the smallest power of two with S² ≥ N. -/
theorem grid_side_cex :
    textureSizeOf 1 = 2 ∧ (∃ k, (1 : ℕ) = 2 ^ k) ∧ 1 ≤ 1 * 1 ∧
    1 < textureSizeOf 1 := by
  refine ⟨rfl, ⟨0, rfl⟩, le_refl 1, by decide⟩

/-- Claim C4 (amended): for every particle count N ≥ 1, the grid side S
chosen at creation (starting at S = 2 and doubling while S² < N) is the
smallest power of two **greater than or equal to 2** with S² ≥ N, and
S² ≥ N always holds.  (For N = 1 the loop returns 2 even though the power
of two 1 already satisfies 1² ≥ N.) -/
theorem grid_side_min_pow2 (n : ℕ) (h : 1 ≤ n) :
    (∃ k, textureSizeOf n = 2 ^ k) ∧ 2 ≤ textureSizeOf n ∧
    n ≤ textureSizeOf n * textureSizeOf n ∧
    (∀ t, (∃ k, t = 2 ^ k) → 2 ≤ t → n ≤ t * t → textureSizeOf n ≤ t) := by
  obtain ⟨hpow, h2, hsq, hmin⟩ := textureSizeOf_spec n
  refine ⟨hpow, h2, hsq, fun t ht ht2 htsq => ?_⟩
  by_contra hlt
  exact absurd ht2 (by
    have := hmin t ht ht2 (by omega)
    omega)

/-- Witness for C4: at the default particle count N = 20000 the chosen
side is a power of two, is 256, and its square 65536 covers all 20000
particles. -/
theorem grid_side_min_pow2_witness :
    (∃ k, textureSizeOf 20000 = 2 ^ k) ∧
    20000 ≤ textureSizeOf 20000 * textureSizeOf 20000 ∧
    textureSizeOf 20000 = 256 :=
  ⟨(grid_side_min_pow2 20000 (by norm_num)).1,
   (grid_side_min_pow2 20000 (by norm_num)).2.2.1,
   by decide⟩

/-- GLSL `length` of a 2-vector. -/
noncomputable def vecLength (v : ℝ × ℝ) : ℝ :=
  Real.sqrt (v.1 * v.1 + v.2 * v.2)

/-- The `particleDistance` function of the force kernel:

    float linear = sqrt((dir.x * dir.x + dir.y * dir.y) / 8.0);
    float attractionForce = pow(linear, 0.2) - 1.0;
    float stiffness = 100000.0;
    const float radius = 1.0;
    float repulsionForce = pow(-linear + 1.0, (1.0 / radius) * 200.0);
    return attractionForce * 2.5 + repulsionForce * stiffness;

GLSL `pow` is modelled by the real power `Real.rpow`. -/
noncomputable def particleDistance (dir : ℝ × ℝ) : ℝ :=
  let linear := Real.sqrt ((dir.1 * dir.1 + dir.2 * dir.2) / 8)
  let attractionForce := linear ^ (0.2 : ℝ) - 1
  let stiffness : ℝ := 100000
  let radius : ℝ := 1
  let repulsionForce := (-linear + 1) ^ ((1 / radius) * 200)
  attractionForce * 2.5 + repulsionForce * stiffness

/-- The force-magnitude formula that claim C1 asserts `particleDistance`
computes, written from the spec's words: repulsion term
`(2.0 - linear) ^ (200 / radius)` with `radius = 1.0`, total
`(linear ^ 0.2 - 1.0) * 2.5 + (2.0 - linear) ^ 200 * 100000.0`. -/
noncomputable def particleDistanceSpec (dir : ℝ × ℝ) : ℝ :=
  let linear := Real.sqrt ((dir.1 * dir.1 + dir.2 * dir.2) / 8)
  let radius : ℝ := 1
  (linear ^ (0.2 : ℝ) - 1) * 2.5 + (2 - linear) ^ ((200 : ℝ) / radius) * 100000

/-- The `colorDistance` expression of the kernel loop:

    cos(length(otherColor.rgb - color.gbr - color.brg)) * 0.1

with `color.gbr = (g, b, r)` and `color.brg = (b, r, g)`. -/
noncomputable def colorDistance (color otherColor : ℝ × ℝ × ℝ) : ℝ :=
  let d1 := otherColor.1 - color.2.1 - color.2.2
  let d2 := otherColor.2.1 - color.2.2 - color.1
  let d3 := otherColor.2.2 - color.1 - color.2.1
  Real.cos (Real.sqrt (d1 * d1 + d2 * d2 + d3 * d3)) * 0.1

/-- One iteration of the kernel's pairwise loop, as the velocity increment
it adds:

    vec2 direction = pos - otherPos;
    float colorDistance = cos(length(otherColor.rgb - color.gbr - color.brg))*0.1;
    float attraction = particleDistance(direction) * gravity;
    vel += direction * attraction * colorDistance;
-/
noncomputable def pairContribution (pos otherPos : ℝ × ℝ)
    (color otherColor : ℝ × ℝ × ℝ) (gravity : ℝ) : ℝ × ℝ :=
  let direction := (pos.1 - otherPos.1, pos.2 - otherPos.2)
  let cd := colorDistance color otherColor
  let attraction := particleDistance direction * gravity
  (direction.1 * attraction * cd, direction.2 * attraction * cd)

lemma pairContribution_self (pos : ℝ × ℝ) (color : ℝ × ℝ × ℝ)
    (gravity : ℝ) : pairContribution pos pos color color gravity = (0, 0) := by
  simp [pairContribution]

/-- The pointer-interaction direction of the kernel:

    vec2 direction = pos - mouse.xy;
    float distance = length(direction);
    if (distance > 0.0) { direction /= distance; }
-/
noncomputable def pointerDirection (pos mxy : ℝ × ℝ) : ℝ × ℝ :=
  let direction := (pos.1 - mxy.1, pos.2 - mxy.2)
  let distance := vecLength direction
  if 0 < distance then (direction.1 / distance, direction.2 / distance)
  else direction

/-- The wall handling at the end of `updateTransform`, applied to the
integrated position and the damped velocity.  `wrapAround = false` is the
branch the source compiles (its `const bool wrapAround = false`); note the
source's wrap-around branch tests `pos.y >= 1.0` but `pos.x > 1.0`. -/
noncomputable def applyBoundary (wrapAround : Bool) (pos vel : ℝ × ℝ) :
    (ℝ × ℝ) × (ℝ × ℝ) :=
  if wrapAround then
    let px := if pos.1 > 1 then (-1 : ℝ) else if pos.1 < -1 then 1 else pos.1
    let py := if pos.2 ≥ 1 then (-1 : ℝ) else if pos.2 < -1 then 1 else pos.2
    ((px, py), vel)
  else
    let px := if pos.1 > 1 then (1 : ℝ) else if pos.1 < -1 then -1 else pos.1
    let vx := if pos.1 > 1 then -vel.1 else if pos.1 < -1 then -vel.1 else vel.1
    let py := if pos.2 > 1 then (1 : ℝ) else if pos.2 < -1 then -1 else pos.2
    let vy := if pos.2 > 1 then -vel.2 else if pos.2 < -1 then -vel.2 else vel.2
    ((px, py), (vx, vy))

/-- The `mouse` uniform: normalized position plus signed strength. -/
structure Mouse where
  x : ℝ
  y : ℝ
  z : ℝ

/-- The current-state textures the kernel samples, one RGBA record per
index: transform = (position, velocity), color = (r, g, b, a),
props = (gravity, radius, unused, unused). -/
structure ParticleState where
  transform : ℕ → (ℝ × ℝ) × (ℝ × ℝ)
  color : ℕ → ℝ × ℝ × ℝ × ℝ
  props : ℕ → ℝ × ℝ × ℝ × ℝ

/-- The `.rgb` swizzle of a color record. -/
def rgbOf (c : ℝ × ℝ × ℝ × ℝ) : ℝ × ℝ × ℝ := (c.1, c.2.1, c.2.2.1)

/-- The `updateTransform` function of the force kernel for particle
`idx`: accumulate the pairwise loop over all `particleCount` indices into
`vel`, add the pointer force when `mouse.z != 0.0`, damp by
`friction = 0.9`, integrate `pos += vel`, and apply the wall policy
(`wrapAround = false` in the source). -/
noncomputable def updateTransform (particleCount : ℕ) (mouse : Mouse)
    (st : ParticleState) (idx : ℕ) : (ℝ × ℝ) × (ℝ × ℝ) :=
  let pos := (st.transform idx).1
  let vel0 := (st.transform idx).2
  let color := rgbOf (st.color idx)
  let gravity := (st.props idx).1
  let friction : ℝ := 0.9
  let velLoop := (List.range particleCount).foldl
    (fun v j =>
      let c := pairContribution pos (st.transform j).1 color
        (rgbOf (st.color j)) gravity
      (v.1 + c.1, v.2 + c.2))
    vel0
  let velMouse :=
    if mouse.z ≠ 0 then
      let direction := pointerDirection pos (mouse.x, mouse.y)
      let attraction := particleDistance direction * mouse.z * 0.01
      (velLoop.1 + direction.1 * attraction, velLoop.2 + direction.2 * attraction)
    else velLoop
  let velF := (velMouse.1 * friction, velMouse.2 * friction)
  let posI := (pos.1 + velF.1, pos.2 + velF.2)
  applyBoundary false posI velF

/-- The `main` entry of the force kernel for computed particle index `i`:

    if (indexParticle > particleCount) { discard; }
    transformOut = updateTransform(indexParticle);
    colorOut = getColor(indexParticle);
    propertyOut = getProperties(indexParticle);

`none` models `discard` (no output records emitted). -/
noncomputable def mainKernel (particleCount : ℕ) (mouse : Mouse)
    (st : ParticleState) (i : ℕ) :
    Option (((ℝ × ℝ) × (ℝ × ℝ)) × (ℝ × ℝ × ℝ × ℝ) × (ℝ × ℝ × ℝ × ℝ)) :=
  if i > particleCount then none
  else some (updateTransform particleCount mouse st i, st.color i, st.props i)

/-- The transform-texture seeding callback of `createParticles`:

    (i) => { if (i < particleCount) {
      return [Math.sin((i / particleCount) * Math.PI * 2) / 2,
              Math.cos((i / particleCount) * Math.PI * 2) / 2, 0, 0]; } }
-/
noncomputable def initTransform (particleCount i : ℕ) :
    Option ((ℝ × ℝ) × (ℝ × ℝ)) :=
  if i < particleCount then
    some ((Real.sin (((i : ℝ) / particleCount) * Real.pi * 2) / 2,
           Real.cos (((i : ℝ) / particleCount) * Real.pi * 2) / 2), (0, 0))
  else none

/-- A state whose every index holds the same records; for
`particleCount = 1` only index 0 is ever sampled, so this captures an
arbitrary single-particle configuration. -/
noncomputable def singleState (t : (ℝ × ℝ) × (ℝ × ℝ)) (c : ℝ × ℝ × ℝ × ℝ)
    (p : ℝ × ℝ × ℝ × ℝ) : ParticleState :=
  ⟨fun _ => t, fun _ => c, fun _ => p⟩

/-- One force-kernel step of the single-particle (N = 1) system. -/
noncomputable def stepSingle (mouse : Mouse) (c p : ℝ × ℝ × ℝ × ℝ)
    (t : (ℝ × ℝ) × (ℝ × ℝ)) : (ℝ × ℝ) × (ℝ × ℝ) :=
  updateTransform 1 mouse (singleState t c p) 0

/-- Counterexample to claim C1 as stated: at the direction vector (0, 0)
the kernel's `particleDistance` returns 99997.5 (repulsion term
`(1 - linear) ^ 200 = 1`), which is strictly below the claimed value
`(linear ^ 0.2 - 1) * 2.5 + (2 - linear) ^ 200 * 100000 = 2^200 * 100000
- 2.5`, so the claimed formula differs from the code at this input. -/
theorem particleDistance_cex :
    particleDistance (0, 0) < particleDistanceSpec (0, 0) := by
  have harg : ((((0 : ℝ), (0 : ℝ)).1 * ((0 : ℝ), (0 : ℝ)).1 +
      ((0 : ℝ), (0 : ℝ)).2 * ((0 : ℝ), (0 : ℝ)).2) / 8) = 0 := by norm_num
  have hcode : particleDistance (0, 0) = 99997.5 := by
    simp only [particleDistance, harg, Real.sqrt_zero]
    rw [Real.zero_rpow (by norm_num : (0.2 : ℝ) ≠ 0)]
    rw [show (-(0 : ℝ) + 1) = 1 by norm_num, Real.one_rpow]
    norm_num
  have hspec : particleDistanceSpec (0, 0) =
      (0.2 : ℝ) * 0 - 2.5 + (2 : ℝ) ^ (200 : ℕ) * 100000 := by
    simp only [particleDistanceSpec, harg, Real.sqrt_zero]
    rw [Real.zero_rpow (by norm_num : (0.2 : ℝ) ≠ 0)]
    rw [show ((2 : ℝ) - 0) = 2 by norm_num,
      show ((200 : ℝ) / 1) = ((200 : ℕ) : ℝ) by norm_num, Real.rpow_natCast]
    ring
  rw [hcode, hspec]
  have hpow : (1 : ℝ) < (2 : ℝ) ^ (200 : ℕ) := by
    exact one_lt_pow₀ (by norm_num : (1 : ℝ) < 2) (by norm_num : (200 : ℕ) ≠ 0)
  nlinarith [hpow]

/-- Claim C1 (amended): with `linear = sqrt((d.x² + d.y²) / 8)`, the
repulsion term computed by `particleDistance` is `(1 - linear) ^ (200 /
radius)` with the constant `radius = 1`, i.e. `(1 - linear) ^ 200` (not
`(2 - linear) ^ 200`), and the returned force magnitude is
`(linear ^ 0.2 - 1) * 2.5 + (1 - linear) ^ 200 * 100000`. -/
theorem particleDistance_formula (dir : ℝ × ℝ) :
    particleDistance dir =
      (Real.sqrt ((dir.1 * dir.1 + dir.2 * dir.2) / 8) ^ (0.2 : ℝ) - 1) * 2.5 +
      (1 - Real.sqrt ((dir.1 * dir.1 + dir.2 * dir.2) / 8)) ^ (200 : ℕ) *
        100000 := by
  simp only [particleDistance]
  rw [show ((1 : ℝ) / 1 * 200) = ((200 : ℕ) : ℝ) by norm_num,
    Real.rpow_natCast]
  ring

/-- Claim C2 evaluated at the failing input: the force kernel's guard
`if (indexParticle > particleCount) discard;` does not discard the
kernel invocation whose computed index equals `particleCount`, so that
index is processed and emits output records, contradicting the claim that
every index ≥ N is a no-op. -/
theorem force_kernel_off_by_one (mouse : Mouse) (st : ParticleState) :
    (mainKernel PARTICLE_COUNT mouse st PARTICLE_COUNT).isSome = true := by
  simp [mainKernel]

/-- Claim C6: the pairwise loop iteration with j = i contributes exactly
zero velocity change, because the direction vector is `pos - pos = (0, 0)`
and the accumulated term is `direction * attraction * colorDistance`. -/
theorem self_pair_contributes_zero (pos : ℝ × ℝ) (color : ℝ × ℝ × ℝ)
    (gravity : ℝ) :
    pairContribution pos pos color color gravity = (0, 0) := by
  simp [pairContribution]

/-- Claim C5: in the default reflective mode, a position component beyond
+1 is clamped to exactly +1 with that axis's velocity negated, and a
component below -1 is clamped to exactly -1 with that axis's velocity
negated; in wrap-around mode the same exceed-the-edge conditions instead
teleport the component to the opposite edge and leave the velocity
unchanged. -/
theorem boundary_policy (pos vel : ℝ × ℝ) :
    ((pos.1 > 1 → (applyBoundary false pos vel).1.1 = 1 ∧
        (applyBoundary false pos vel).2.1 = -vel.1) ∧
     (pos.1 < -1 → (applyBoundary false pos vel).1.1 = -1 ∧
        (applyBoundary false pos vel).2.1 = -vel.1) ∧
     (pos.2 > 1 → (applyBoundary false pos vel).1.2 = 1 ∧
        (applyBoundary false pos vel).2.2 = -vel.2) ∧
     (pos.2 < -1 → (applyBoundary false pos vel).1.2 = -1 ∧
        (applyBoundary false pos vel).2.2 = -vel.2)) ∧
    ((pos.1 > 1 → (applyBoundary true pos vel).1.1 = -1) ∧
     (pos.1 < -1 → (applyBoundary true pos vel).1.1 = 1) ∧
     (pos.2 > 1 → (applyBoundary true pos vel).1.2 = -1) ∧
     (pos.2 < -1 → (applyBoundary true pos vel).1.2 = 1) ∧
     (applyBoundary true pos vel).2 = vel) := by
  refine ⟨⟨fun h => ?_, fun h => ?_, fun h => ?_, fun h => ?_⟩,
    fun h => ?_, fun h => ?_, fun h => ?_, fun h => ?_, ?_⟩
  · simp [applyBoundary, h]
  · have h' : ¬ pos.1 > 1 := by linarith
    simp [applyBoundary, h, h']
  · simp [applyBoundary, h]
  · have h' : ¬ pos.2 > 1 := by linarith
    simp [applyBoundary, h, h']
  · simp [applyBoundary, h]
  · have h' : ¬ pos.1 > 1 := by linarith
    simp [applyBoundary, h, h']
  · simp [applyBoundary, h.le]
  · have h' : ¬ pos.2 ≥ 1 := by linarith
    simp [applyBoundary, h, h']
  · simp [applyBoundary]

/-- Witness for C5 at the concrete input pos = (3/2, -2), vel =
(1/4, 1/3): reflective mode clamps to (1, -1) and negates both velocity
components; wrap mode teleports to (-1, 1) with the velocity unchanged. -/
theorem boundary_policy_witness :
    (applyBoundary false ((3/2 : ℝ), (-2 : ℝ)) ((1/4 : ℝ), (1/3 : ℝ))).1.1 = 1 ∧
    (applyBoundary false ((3/2 : ℝ), (-2 : ℝ)) ((1/4 : ℝ), (1/3 : ℝ))).2.1 = -(1/4 : ℝ) ∧
    (applyBoundary false ((3/2 : ℝ), (-2 : ℝ)) ((1/4 : ℝ), (1/3 : ℝ))).1.2 = -1 ∧
    (applyBoundary false ((3/2 : ℝ), (-2 : ℝ)) ((1/4 : ℝ), (1/3 : ℝ))).2.2 = -(1/3 : ℝ) ∧
    (applyBoundary true ((3/2 : ℝ), (-2 : ℝ)) ((1/4 : ℝ), (1/3 : ℝ))).1.1 = -1 ∧
    (applyBoundary true ((3/2 : ℝ), (-2 : ℝ)) ((1/4 : ℝ), (1/3 : ℝ))).1.2 = 1 ∧
    (applyBoundary true ((3/2 : ℝ), (-2 : ℝ)) ((1/4 : ℝ), (1/3 : ℝ))).2 =
      ((1/4 : ℝ), (1/3 : ℝ)) := by
  have h := boundary_policy ((3/2 : ℝ), (-2 : ℝ)) ((1/4 : ℝ), (1/3 : ℝ))
  have hx : ((3/2 : ℝ), (-2 : ℝ)).1 > 1 := by show (3/2 : ℝ) > 1; norm_num
  have hy : ((3/2 : ℝ), (-2 : ℝ)).2 < -1 := by show (-2 : ℝ) < -1; norm_num
  exact ⟨(h.1.1 hx).1, (h.1.1 hx).2, (h.1.2.2.2 hy).1, (h.1.2.2.2 hy).2,
    h.2.1 hx, h.2.2.2.2.1 hy, h.2.2.2.2.2⟩

/-- A constant particle state used to instantiate theorems: every index
holds the seed records of particle 0 (position on the radius-1/2 circle at
angle 0, zero velocity, red color, gravity 0.00001). -/
noncomputable def stConst : ParticleState :=
  ⟨fun _ => ((0, 1/2), (0, 0)), fun _ => (1, 0, 0, 1),
   fun _ => (0.00001, 0, 0, 0)⟩

/-- Claim C7: for every active particle index i < particleCount, the force
kernel emits output records whose Color and Properties components are
exactly the prior `getColor(i)` and `getProperties(i)`; only the Transform
component is newly computed. -/
theorem step_preserves_color_props (particleCount : ℕ) (mouse : Mouse)
    (st : ParticleState) (i : ℕ) (h : i < particleCount) :
    mainKernel particleCount mouse st i =
      some (updateTransform particleCount mouse st i, st.color i,
        st.props i) := by
  have h' : ¬ i > particleCount := by omega
  simp [mainKernel, h']

/-- Witness for C7: for a one-particle system in the concrete state
`stConst`, the kernel's color output is the prior color record
(1, 0, 0, 1) and its properties output is the prior record
(0.00001, 0, 0, 0). -/
theorem step_preserves_color_props_witness :
    mainKernel 1 ⟨0, 0, 0⟩ stConst 0 =
      some (updateTransform 1 ⟨0, 0, 0⟩ stConst 0, (1, 0, 0, 1),
        (0.00001, 0, 0, 0)) :=
  step_preserves_color_props 1 ⟨0, 0, 0⟩ stConst 0 (by norm_num)

/-- Claim C8: for every seeded particle i in [0, N), the transform seed is
`(sin(2π·i/N)/2, cos(2π·i/N)/2)` with zero initial velocity, and that
position lies on the circle of radius 1/2 (its norm is exactly 1/2). -/
theorem seed_on_half_circle (particleCount i : ℕ) (h : i < particleCount) :
    initTransform particleCount i =
      some ((Real.sin (2 * Real.pi * i / particleCount) / 2,
             Real.cos (2 * Real.pi * i / particleCount) / 2), (0, 0)) ∧
    vecLength (Real.sin (2 * Real.pi * i / particleCount) / 2,
               Real.cos (2 * Real.pi * i / particleCount) / 2) = 1 / 2 := by
  constructor
  · simp only [initTransform, if_pos h]
    have harg : ((i : ℝ) / particleCount) * Real.pi * 2 =
        2 * Real.pi * i / particleCount := by ring
    rw [harg]
  · have key : Real.sin (2 * Real.pi * i / particleCount) / 2 *
        (Real.sin (2 * Real.pi * i / particleCount) / 2) +
        Real.cos (2 * Real.pi * i / particleCount) / 2 *
        (Real.cos (2 * Real.pi * i / particleCount) / 2) = 1 / 4 := by
      have h1 := Real.sin_sq_add_cos_sq (2 * Real.pi * i / particleCount)
      nlinarith [h1]
    simp only [vecLength]
    rw [key, show (1 / 4 : ℝ) = (1 / 2) ^ 2 by norm_num,
      Real.sqrt_sq (by norm_num : (0 : ℝ) ≤ 1 / 2)]

/-- Witness for C8 at N = 4, i = 1: the seed record is on the radius-1/2
circle at angle π/2 with zero velocity. -/
theorem seed_on_half_circle_witness :
    initTransform 4 1 =
      some ((Real.sin (2 * Real.pi * ((1 : ℕ) : ℝ) / ((4 : ℕ) : ℝ)) / 2,
             Real.cos (2 * Real.pi * ((1 : ℕ) : ℝ) / ((4 : ℕ) : ℝ)) / 2),
            (0, 0)) ∧
    vecLength (Real.sin (2 * Real.pi * ((1 : ℕ) : ℝ) / ((4 : ℕ) : ℝ)) / 2,
               Real.cos (2 * Real.pi * ((1 : ℕ) : ℝ) / ((4 : ℕ) : ℝ)) / 2) =
      1 / 2 :=
  seed_on_half_circle 4 1 (by norm_num)

lemma vecLength_applyBoundary_false (pos vel : ℝ × ℝ) :
    vecLength ((applyBoundary false pos vel).2) = vecLength vel := by
  have h : (applyBoundary false pos vel).2 =
      ((if pos.1 > 1 then -vel.1 else if pos.1 < -1 then -vel.1 else vel.1),
       (if pos.2 > 1 then -vel.2 else if pos.2 < -1 then -vel.2 else vel.2)) := by
    simp [applyBoundary]
  rw [h]
  simp only [vecLength]
  split_ifs <;> (congr 1 <;> ring)

lemma stepSingle_eq (mouse : Mouse) (hz : mouse.z = 0)
    (c p : ℝ × ℝ × ℝ × ℝ) (t : (ℝ × ℝ) × (ℝ × ℝ)) :
    stepSingle mouse c p t =
      applyBoundary false (t.1.1 + t.2.1 * 0.9, t.1.2 + t.2.2 * 0.9)
        (t.2.1 * 0.9, t.2.2 * 0.9) := by
  unfold stepSingle updateTransform singleState
  have hr1 : List.range 1 = [0] := rfl
  simp [hr1, pairContribution_self, hz]

lemma stepSingle_speed (mouse : Mouse) (hz : mouse.z = 0)
    (c p : ℝ × ℝ × ℝ × ℝ) (t : (ℝ × ℝ) × (ℝ × ℝ)) :
    vecLength (stepSingle mouse c p t).2 = 0.9 * vecLength t.2 := by
  rw [stepSingle_eq mouse hz c p t, vecLength_applyBoundary_false]
  simp only [vecLength]
  rw [show t.2.1 * 0.9 * (t.2.1 * 0.9) + t.2.2 * 0.9 * (t.2.2 * 0.9)
      = (0.9 : ℝ) ^ 2 * (t.2.1 * t.2.1 + t.2.2 * t.2.2) by ring]
  rw [Real.sqrt_mul (by positivity) _,
    Real.sqrt_sq (by norm_num : (0 : ℝ) ≤ 0.9)]

/-- Counterexample to claim C9 as stated: at the seeded single-particle
state (position (0, 1/2), velocity (0, 0)) with pointer strength 0, the
velocity magnitude after a step equals the magnitude before it — both are
exactly 0 — so the magnitude does not strictly decrease every step, and
the system is at exactly zero velocity after finitely many steps. -/
theorem single_particle_decay_cex :
    vecLength (stepSingle ⟨0, 0, 0⟩ (1, 0, 0, 1) (0.00001, 0, 0, 0)
        (((0 : ℝ), (1/2 : ℝ)), ((0 : ℝ), (0 : ℝ)))).2 =
      vecLength (((0 : ℝ), (1/2 : ℝ)), ((0 : ℝ), (0 : ℝ))).2 ∧
    vecLength (((0 : ℝ), (1/2 : ℝ)), ((0 : ℝ), (0 : ℝ))).2 = 0 := by
  have h := stepSingle_speed ⟨0, 0, 0⟩ rfl (1, 0, 0, 1) (0.00001, 0, 0, 0)
    (((0 : ℝ), (1/2 : ℝ)), ((0 : ℝ), (0 : ℝ)))
  have h0 : vecLength (((0 : ℝ), (1/2 : ℝ)), ((0 : ℝ), (0 : ℝ))).2 = 0 := by
    norm_num [vecLength]
  rw [h, h0]
  norm_num

/-- Claim C9 (amended): for a single-particle system (N = 1) with pointer
strength 0 and a nonzero starting velocity, the pairwise self-term
contributes nothing, and the velocity magnitude decays geometrically by
the friction factor 0.9 each step: it strictly decreases every step and
never reaches zero in finitely many steps.  (With a zero starting
velocity, as seeded, it stays exactly zero instead.) -/
theorem single_particle_decay (mouse : Mouse) (c p : ℝ × ℝ × ℝ × ℝ)
    (t0 : (ℝ × ℝ) × (ℝ × ℝ)) (hz : mouse.z = 0)
    (hv : vecLength t0.2 ≠ 0) (n : ℕ) :
    vecLength ((stepSingle mouse c p)^[n] t0).2 =
      0.9 ^ n * vecLength t0.2 ∧
    vecLength ((stepSingle mouse c p)^[n] t0).2 ≠ 0 ∧
    vecLength ((stepSingle mouse c p)^[n + 1] t0).2 <
      vecLength ((stepSingle mouse c p)^[n] t0).2 := by
  have hgeom : ∀ m : ℕ, vecLength ((stepSingle mouse c p)^[m] t0).2 =
      0.9 ^ m * vecLength t0.2 := by
    intro m
    induction m with
    | zero => simp
    | succ k ih =>
      rw [Function.iterate_succ_apply', stepSingle_speed mouse hz c p, ih]
      ring
  have hpos : 0 < vecLength t0.2 :=
    lt_of_le_of_ne (Real.sqrt_nonneg _) (Ne.symm hv)
  have h9 : (0 : ℝ) < 0.9 ^ n := pow_pos (by norm_num) n
  refine ⟨hgeom n, ?_, ?_⟩
  · rw [hgeom n]
    exact ne_of_gt (mul_pos h9 hpos)
  · rw [hgeom (n + 1), hgeom n, pow_succ]
    nlinarith [mul_pos h9 hpos]

/-- Witness for C9: starting the single particle at position (0, 1/2) with
velocity (1, 0) and pointer strength 0, the speed strictly decreases over
the first step. -/
theorem single_particle_decay_witness :
    vecLength ((stepSingle ⟨0, 0, 0⟩ (1, 0, 0, 1) (0.00001, 0, 0, 0))^[1]
        (((0 : ℝ), (1/2 : ℝ)), ((1 : ℝ), (0 : ℝ)))).2 <
      vecLength (((0 : ℝ), (1/2 : ℝ)), ((1 : ℝ), (0 : ℝ))).2 :=
  (single_particle_decay ⟨0, 0, 0⟩ (1, 0, 0, 1) (0.00001, 0, 0, 0)
    (((0 : ℝ), (1/2 : ℝ)), ((1 : ℝ), (0 : ℝ))) rfl
    (by norm_num [vecLength]) 0).2.2

lemma vecLength_mk (a b : ℝ) :
    vecLength (a, b) = Real.sqrt (a * a + b * b) := rfl

lemma particleDistance_congr (a b : ℝ × ℝ)
    (h : a.1 * a.1 + a.2 * a.2 = b.1 * b.1 + b.2 * b.2) :
    particleDistance a = particleDistance b := by
  simp only [particleDistance, h]

/-- Claim C10: whenever the particle's distance to the pointer is nonzero,
the direction passed to `particleDistance` is normalized to unit length,
so the pointer force magnitude `particleDistance(direction) * strength *
0.01` is the same constant for every particle position — it equals the
value at the fixed unit direction (1, 0). -/
theorem pointer_force_uniform (pos mxy : ℝ × ℝ) (z : ℝ)
    (h : 0 < vecLength (pos.1 - mxy.1, pos.2 - mxy.2)) :
    vecLength (pointerDirection pos mxy) = 1 ∧
    particleDistance (pointerDirection pos mxy) * z * 0.01 =
      particleDistance (1, 0) * z * 0.01 := by
  have hsq : vecLength (pos.1 - mxy.1, pos.2 - mxy.2) *
      vecLength (pos.1 - mxy.1, pos.2 - mxy.2) =
      (pos.1 - mxy.1) * (pos.1 - mxy.1) +
      (pos.2 - mxy.2) * (pos.2 - mxy.2) := by
    simp only [vecLength]
    exact Real.mul_self_sqrt
      (by nlinarith [mul_self_nonneg (pos.1 - mxy.1),
        mul_self_nonneg (pos.2 - mxy.2)])
  have hd : pointerDirection pos mxy =
      ((pos.1 - mxy.1) / vecLength (pos.1 - mxy.1, pos.2 - mxy.2),
       (pos.2 - mxy.2) / vecLength (pos.1 - mxy.1, pos.2 - mxy.2)) := by
    simp only [pointerDirection]
    rw [if_pos h]
  have hd0 : vecLength (pos.1 - mxy.1, pos.2 - mxy.2) ≠ 0 := ne_of_gt h
  have hunit : (pos.1 - mxy.1) / vecLength (pos.1 - mxy.1, pos.2 - mxy.2) *
      ((pos.1 - mxy.1) / vecLength (pos.1 - mxy.1, pos.2 - mxy.2)) +
      (pos.2 - mxy.2) / vecLength (pos.1 - mxy.1, pos.2 - mxy.2) *
      ((pos.2 - mxy.2) / vecLength (pos.1 - mxy.1, pos.2 - mxy.2)) = 1 := by
    field_simp
    nlinarith [hsq]
  constructor
  · rw [hd, vecLength_mk, hunit, Real.sqrt_one]
  · have hcongr : particleDistance (pointerDirection pos mxy) =
        particleDistance (1, 0) := by
      apply particleDistance_congr
      rw [hd]
      have hr : ((1 : ℝ), (0 : ℝ)).1 * ((1 : ℝ), (0 : ℝ)).1 +
          ((1 : ℝ), (0 : ℝ)).2 * ((1 : ℝ), (0 : ℝ)).2 = 1 := by norm_num
      rw [hr]
      exact hunit
    rw [hcongr]

/-- Witness for C10 at the concrete input pos = (1, 0), pointer at (0, 0),
strength 1: the normalized direction has unit length and the force scale
equals the fixed constant at direction (1, 0). -/
theorem pointer_force_uniform_witness :
    vecLength (pointerDirection ((1 : ℝ), (0 : ℝ)) ((0 : ℝ), (0 : ℝ))) = 1 ∧
    particleDistance (pointerDirection ((1 : ℝ), (0 : ℝ))
        ((0 : ℝ), (0 : ℝ))) * 1 * 0.01 =
      particleDistance (1, 0) * 1 * 0.01 :=
  pointer_force_uniform ((1 : ℝ), (0 : ℝ)) ((0 : ℝ), (0 : ℝ)) 1
    (by norm_num [vecLength, Real.sqrt_one])
